import Mathlib

/-!
Verification of the meta-copy pipeline cache of dxvk
(`src/dxvk/dxvk_meta_copy.h`).

Vulkan handle and enum types (`VkFormat`, `VkImageViewType`,
`VkSampleCountFlagBits`, `VkImageAspectFlags`, `VkShaderModule`, ...) are
non-negative machine integers or opaque handles in the C API; we embed them
as `Nat`.  Where the C++ code computes in `uint32_t`, overflow is made
explicit with `% 2 ^ 32`.
-/

set_option autoImplicit false

namespace DxvkMetaCopy

/-- Aspect flag bit `VK_IMAGE_ASPECT_COLOR_BIT`. -/
def VK_IMAGE_ASPECT_COLOR_BIT : Nat := 1

/-- Aspect flag bit `VK_IMAGE_ASPECT_DEPTH_BIT`. -/
def VK_IMAGE_ASPECT_DEPTH_BIT : Nat := 2

/-- Aspect flag bit `VK_IMAGE_ASPECT_STENCIL_BIT`. -/
def VK_IMAGE_ASPECT_STENCIL_BIT : Nat := 4

/-- Embedding of `struct DxvkMetaCopyPipeline`: the bundle of the four GPU
object handles stored for a single copy pipeline
(`renderPass`, `dsetLayout`, `pipeLayout`, `pipeHandle`). -/
structure DxvkMetaCopyPipeline where
  renderPass : Nat
  dsetLayout : Nat
  pipeLayout : Nat
  pipeHandle : Nat
deriving DecidableEq, Repr

/-- Embedding of `struct DxvkMetaCopyPipelineKey`: view type, destination
format and destination sample count. -/
structure DxvkMetaCopyPipelineKey where
  viewType : Nat
  format : Nat
  samples : Nat
deriving DecidableEq, Repr

/-- Embedding of `DxvkMetaCopyPipelineKey::eq`: structural comparison of the
three fields. -/
def DxvkMetaCopyPipelineKey.eq (a b : DxvkMetaCopyPipelineKey) : Bool :=
  a.viewType == b.viewType
    && a.format == b.format
    && a.samples == b.samples

/-- Embedding of `DxvkMetaCopyPipelineKey::hash`:
`(uint32_t(format) << 8) ^ (uint32_t(samples) << 4) ^ uint32_t(viewType)`.
The shifts are performed in `uint32_t`, hence the explicit wrap-around. -/
def DxvkMetaCopyPipelineKey.hash (k : DxvkMetaCopyPipelineKey) : Nat :=
  ((k.format <<< 8) % 2 ^ 32)
    ^^^ ((k.samples <<< 4) % 2 ^ 32)
    ^^^ (k.viewType % 2 ^ 32)

/-- `eq` returns `true` exactly when the two keys agree on all three
fields. -/
theorem key_eq_iff (a b : DxvkMetaCopyPipelineKey) :
    a.eq b = true ↔
      a.viewType = b.viewType ∧ a.format = b.format ∧ a.samples = b.samples := by
  simp [DxvkMetaCopyPipelineKey.eq, and_assoc]

/-- `eq` coincides with propositional equality of keys. -/
theorem key_eq_iff_eq (a b : DxvkMetaCopyPipelineKey) :
    a.eq b = true ↔ a = b := by
  rw [key_eq_iff]
  constructor
  · rintro ⟨h1, h2, h3⟩
    cases a; cases b
    simp_all
  · rintro rfl
    exact ⟨rfl, rfl, rfl⟩

end DxvkMetaCopy

namespace DxvkMetaCopy

/-- C5: `DxvkMetaCopyPipelineKey::eq` returns `true` iff the `viewType`,
`format` and `samples` fields all match exactly. -/
theorem c5_key_eq_structural (a b : DxvkMetaCopyPipelineKey) :
    a.eq b = true ↔
      a.viewType = b.viewType ∧ a.format = b.format ∧ a.samples = b.samples :=
  key_eq_iff a b

/-- C6: `eq` and `hash` are total Lean functions (hence pure and defined on
every key), and they are consistent: keys that compare equal under `eq` have
equal hashes. -/
theorem c6_eq_hash_consistent (a b : DxvkMetaCopyPipelineKey) :
    a.eq b = true → a.hash = b.hash := by
  intro h
  rw [key_eq_iff_eq] at h
  rw [h]

/-- Witness for C6 at a concrete pair of equal keys. -/
theorem c6_eq_hash_consistent_witness :
    (DxvkMetaCopyPipelineKey.mk 1 37 4).hash
      = (DxvkMetaCopyPipelineKey.mk 1 37 4).hash :=
  c6_eq_hash_consistent
    (DxvkMetaCopyPipelineKey.mk 1 37 4)
    (DxvkMetaCopyPipelineKey.mk 1 37 4)
    (by decide)

/-- The cache state: the contents of the member
`std::unordered_map<DxvkMetaCopyPipelineKey, DxvkMetaCopyPipeline, DxvkHash, DxvkEq>
m_pipelines`, embedded as an association list of entries.  Lookup in the map
is by `DxvkEq` (which calls `DxvkMetaCopyPipelineKey::eq`); the hash only
selects a bucket and, since `eq` implies equal hashes, membership is decided
by `eq` alone. -/
abbrev CacheState := List (DxvkMetaCopyPipelineKey × DxvkMetaCopyPipeline)

/-- Lookup of a key in the cache state, using the key type's `eq`. -/
def findEntry : CacheState → DxvkMetaCopyPipelineKey → Option DxvkMetaCopyPipeline
  | [], _ => none
  | e :: rest, k => if e.fst.eq k then some e.snd else findEntry rest k

/-- Number of cache entries whose key compares equal to `k`. -/
def countKey (s : CacheState) (k : DxvkMetaCopyPipelineKey) : Nat :=
  (s.filter (fun e => e.fst.eq k)).length

/-- Modelled from the spec: the body of `DxvkMetaCopyObjects::getPipeline`
lives in `dxvk_meta_copy.cpp`, which is not part of the sources; only its
declaration is.  Per the spec (4.2), under the cache mutex the call looks the
key up in `m_pipelines`; on a hit it returns the existing entry unchanged, on
a miss it synchronously builds the object set and inserts it.  The builder
(`createPipeline`) is abstracted as an arbitrary function `build` from keys
to handle bundles. -/
def getPipeline (build : DxvkMetaCopyPipelineKey → DxvkMetaCopyPipeline)
    (s : CacheState) (k : DxvkMetaCopyPipelineKey) :
    DxvkMetaCopyPipeline × CacheState :=
  match findEntry s k with
  | some p => (p, s)
  | none => ((build k), (k, build k) :: s)

/-- A sequence of `getPipeline` calls, threading the cache state. -/
def runCalls (build : DxvkMetaCopyPipelineKey → DxvkMetaCopyPipeline) :
    CacheState → List DxvkMetaCopyPipelineKey → CacheState
  | s, [] => s
  | s, k :: ks => runCalls build ((getPipeline build s k).snd) ks

/-- Whether the cache already holds an entry for `k`. -/
def cached (s : CacheState) (k : DxvkMetaCopyPipelineKey) : Bool :=
  (findEntry s k).isSome

theorem findEntry_none_iff_countKey_zero (s : CacheState)
    (k : DxvkMetaCopyPipelineKey) :
    findEntry s k = none ↔ countKey s k = 0 := by
  induction s with
  | nil => simp [findEntry, countKey]
  | cons e rest ih =>
    by_cases h : e.fst.eq k = true
    · simp [findEntry, countKey, h]
    · simp only [Bool.not_eq_true] at h
      simp only [findEntry, countKey, h, List.filter] at *
      simp [ih, countKey, h]

theorem countKey_getPipeline
    (build : DxvkMetaCopyPipelineKey → DxvkMetaCopyPipeline)
    (s : CacheState) (k j : DxvkMetaCopyPipelineKey) :
    countKey ((getPipeline build s k).snd) j =
      if cached s k then countKey s j
      else if k.eq j then countKey s j + 1 else countKey s j := by
  unfold getPipeline cached
  cases h : findEntry s k with
  | some p => simp [h]
  | none =>
    by_cases hkj : k.eq j = true
    · simp [h, hkj, countKey, List.filter]
    · simp only [Bool.not_eq_true] at hkj
      simp [h, hkj, countKey, List.filter]

theorem cached_getPipeline
    (build : DxvkMetaCopyPipelineKey → DxvkMetaCopyPipeline)
    (s : CacheState) (k j : DxvkMetaCopyPipelineKey) :
    cached ((getPipeline build s k).snd) j = (cached s j || k.eq j) := by
  unfold getPipeline
  cases h : findEntry s k with
  | some p =>
    simp only [h]
    by_cases hkj : k.eq j = true
    · rw [key_eq_iff_eq] at hkj
      subst hkj
      simp [cached, h]
    · simp only [Bool.not_eq_true] at hkj
      simp [hkj]
  | none =>
    simp only [h, cached, findEntry]
    by_cases hkj : k.eq j = true
    · simp [hkj]
    · simp only [Bool.not_eq_true] at hkj
      simp [hkj, cached]

theorem countKey_runCalls
    (build : DxvkMetaCopyPipelineKey → DxvkMetaCopyPipeline)
    (ks : List DxvkMetaCopyPipelineKey) (s : CacheState)
    (hInv : ∀ j, countKey s j = if cached s j then 1 else 0) :
    ∀ j, countKey (runCalls build s ks) j =
      if cached s j || ks.any (fun k => k.eq j) then 1 else 0 := by
  induction ks generalizing s with
  | nil => simpa [runCalls] using hInv
  | cons k ks ih =>
    intro j
    have step : ∀ j, countKey ((getPipeline build s k).snd) j =
        if cached ((getPipeline build s k).snd) j then 1 else 0 := by
      intro j
      rw [countKey_getPipeline, cached_getPipeline, hInv j]
      by_cases hc : cached s k = true
      · have hj : (cached s j || k.eq j) = cached s j := by
          by_cases hkj : k.eq j = true
          · rw [key_eq_iff_eq] at hkj
            subst hkj
            simp [hc]
          · simp only [Bool.not_eq_true] at hkj
            simp [hkj]
        simp [hc, hj]
      · simp only [Bool.not_eq_true] at hc
        by_cases hkj : k.eq j = true
        · have : cached s j = false := by
            rw [key_eq_iff_eq] at hkj
            subst hkj
            exact hc
          simp [hc, hkj, this, hInv j]
        · simp only [Bool.not_eq_true] at hkj
          simp [hc, hkj]
    have := ih ((getPipeline build s k).snd) step j
    rw [runCalls, this, cached_getPipeline]
    by_cases h1 : cached s j = true <;>
      by_cases h2 : k.eq j = true <;>
        simp [h1, h2, List.any]

theorem getPipeline_result_of_cached
    (build : DxvkMetaCopyPipelineKey → DxvkMetaCopyPipeline)
    (s : CacheState) (k : DxvkMetaCopyPipelineKey) (p : DxvkMetaCopyPipeline)
    (h : findEntry s k = some p) :
    (getPipeline build s k).fst = p := by
  unfold getPipeline
  rw [h]

/-- A sample pipeline builder used to instantiate the cache theorems on
concrete inputs. -/
def demoBuild (k : DxvkMetaCopyPipelineKey) : DxvkMetaCopyPipeline :=
  ⟨k.format, k.samples, k.viewType, 0⟩

/-- C1: for any builder and any starting state, a second `getPipeline` call
with a key equal to the first returns the identical handle bundle, and after
any sequence of calls starting from the empty cache, the cache holds exactly
one entry per distinct requested key (and none for unrequested keys). -/
theorem c1_getPipeline_idempotent_one_entry_per_key
    (build : DxvkMetaCopyPipelineKey → DxvkMetaCopyPipeline)
    (s : CacheState) (k1 k2 : DxvkMetaCopyPipelineKey)
    (ks : List DxvkMetaCopyPipelineKey) (j : DxvkMetaCopyPipelineKey)
    (hEq : k1.eq k2 = true) :
    (getPipeline build ((getPipeline build s k1).snd) k2).fst
        = (getPipeline build s k1).fst
      ∧ countKey (runCalls build [] ks) j
        = if ks.any (fun k => k.eq j) then 1 else 0 := by
  constructor
  · rw [key_eq_iff_eq] at hEq
    subst hEq
    unfold getPipeline
    cases h : findEntry s k1 with
    | some p => simp [h]
    | none =>
      have hrefl : k1.eq k1 = true := (key_eq_iff_eq k1 k1).mpr rfl
      simp [h, findEntry, hrefl]
  · have hInv : ∀ j, countKey ([] : CacheState) j =
        if cached ([] : CacheState) j then 1 else 0 := by
      intro j
      simp [countKey, cached, findEntry]
    have h := countKey_runCalls build ks [] hInv j
    simpa [cached, findEntry] using h

/-- Witness for C1 at concrete keys and call sequences. -/
theorem c1_getPipeline_idempotent_one_entry_per_key_witness :
    (getPipeline demoBuild
          ((getPipeline demoBuild [] (DxvkMetaCopyPipelineKey.mk 1 37 4)).snd)
          (DxvkMetaCopyPipelineKey.mk 1 37 4)).fst
        = (getPipeline demoBuild [] (DxvkMetaCopyPipelineKey.mk 1 37 4)).fst
      ∧ countKey
          (runCalls demoBuild []
            [DxvkMetaCopyPipelineKey.mk 1 37 4,
             DxvkMetaCopyPipelineKey.mk 1 38 4,
             DxvkMetaCopyPipelineKey.mk 1 37 4])
          (DxvkMetaCopyPipelineKey.mk 1 37 4)
        = if ([DxvkMetaCopyPipelineKey.mk 1 37 4,
               DxvkMetaCopyPipelineKey.mk 1 38 4,
               DxvkMetaCopyPipelineKey.mk 1 37 4].any
                (fun k => k.eq (DxvkMetaCopyPipelineKey.mk 1 37 4)))
          then 1 else 0 :=
  c1_getPipeline_idempotent_one_entry_per_key demoBuild []
    (DxvkMetaCopyPipelineKey.mk 1 37 4) (DxvkMetaCopyPipelineKey.mk 1 37 4)
    [DxvkMetaCopyPipelineKey.mk 1 37 4,
     DxvkMetaCopyPipelineKey.mk 1 38 4,
     DxvkMetaCopyPipelineKey.mk 1 37 4]
    (DxvkMetaCopyPipelineKey.mk 1 37 4) (by decide)

/-- C2: `getPipeline` — the only operation that mutates `m_pipelines` —
preserves the invariant that at most one entry exists per distinct key, and
it never removes or replaces an existing entry: every entry of the old state
is still an entry of the new state. -/
theorem c2_cache_at_most_one_entry_no_eviction
    (build : DxvkMetaCopyPipelineKey → DxvkMetaCopyPipeline)
    (s : CacheState) (k : DxvkMetaCopyPipelineKey)
    (hInv : ∀ j, countKey s j ≤ 1) :
    (∀ j, countKey ((getPipeline build s k).snd) j ≤ 1)
      ∧ ∀ e, e ∈ s → e ∈ (getPipeline build s k).snd := by
  constructor
  · intro j
    rw [countKey_getPipeline]
    by_cases hc : cached s k = true
    · simpa [hc] using hInv j
    · simp only [Bool.not_eq_true] at hc
      by_cases hkj : k.eq j = true
      · have hnone : findEntry s k = none := by
          unfold cached at hc
          cases h : findEntry s k with
          | none => rfl
          | some p => rw [h] at hc; simp at hc
        have hk0 : countKey s k = 0 :=
          (findEntry_none_iff_countKey_zero s k).mp hnone
        rw [key_eq_iff_eq] at hkj
        subst hkj
        simp [hc, (key_eq_iff_eq k k).mpr rfl, hk0]
      · simpa [hc, hkj] using hInv j
  · intro e he
    unfold getPipeline
    cases h : findEntry s k with
    | some p => simpa [h] using he
    | none =>
      simp only [h]
      exact List.mem_cons_of_mem _ he

/-- Witness for C2 at a concrete state and key. -/
theorem c2_cache_at_most_one_entry_no_eviction_witness :
    countKey
        ((getPipeline demoBuild
            [(DxvkMetaCopyPipelineKey.mk 1 38 4, demoBuild (DxvkMetaCopyPipelineKey.mk 1 38 4))]
            (DxvkMetaCopyPipelineKey.mk 1 37 4)).snd)
        (DxvkMetaCopyPipelineKey.mk 1 37 4) ≤ 1
      ∧ (DxvkMetaCopyPipelineKey.mk 1 38 4, demoBuild (DxvkMetaCopyPipelineKey.mk 1 38 4))
        ∈ (getPipeline demoBuild
            [(DxvkMetaCopyPipelineKey.mk 1 38 4, demoBuild (DxvkMetaCopyPipelineKey.mk 1 38 4))]
            (DxvkMetaCopyPipelineKey.mk 1 37 4)).snd := by
  have h := c2_cache_at_most_one_entry_no_eviction demoBuild
    [(DxvkMetaCopyPipelineKey.mk 1 38 4, demoBuild (DxvkMetaCopyPipelineKey.mk 1 38 4))]
    (DxvkMetaCopyPipelineKey.mk 1 37 4)
    (fun j => List.length_filter_le _ _)
  exact ⟨h.1 (DxvkMetaCopyPipelineKey.mk 1 37 4),
    h.2 (DxvkMetaCopyPipelineKey.mk 1 38 4, demoBuild (DxvkMetaCopyPipelineKey.mk 1 38 4))
      (List.mem_singleton.mpr rfl)⟩

/-- Whether an aspect mask falls into the depth/stencil aspect class, i.e.
carries a depth or stencil bit. -/
def isDepthStencilAspect (aspect : Nat) : Bool :=
  aspect &&& (VK_IMAGE_ASPECT_DEPTH_BIT ||| VK_IMAGE_ASPECT_STENCIL_BIT) != 0

/-- Modelled from the spec: the cross-aspect format table used by
`getCopyDestinationFormat`, whose body lives in `dxvk_meta_copy.cpp`, which
is not part of the sources.  Per the spec (4.4), the table is finite and maps
a depth/stencil format to the bit-compatible color format of equal bit width
and vice versa (the spec names the 16-bit and 32-bit cases); any format with
no entry has no mapping.  Vulkan enum values: `VK_FORMAT_R16_UNORM = 70`,
`VK_FORMAT_R32_SFLOAT = 100`, `VK_FORMAT_D16_UNORM = 124`,
`VK_FORMAT_D32_SFLOAT = 126`. -/
def crossAspectFormatTable (srcFormat : Nat) : Option Nat :=
  if srcFormat = 124 then some 70
  else if srcFormat = 126 then some 100
  else if srcFormat = 70 then some 124
  else if srcFormat = 100 then some 126
  else none

/-- Modelled from the spec: `DxvkMetaCopyObjects::getCopyDestinationFormat`,
whose body lives in `dxvk_meta_copy.cpp`, which is not part of the sources.
Per the spec (4.4) it is a pure mapping: when destination and source aspects
are in the same aspect class (both color, or both depth/stencil) the result
is `srcFormat` unmodified; when one side is depth/stencil and the other is
color, the result comes from the finite cross-aspect table, and a format
with no entry is an unsupported-configuration error (`none`), never a
best-effort guess. -/
def getCopyDestinationFormat (dstAspect srcAspect srcFormat : Nat) :
    Option Nat :=
  if isDepthStencilAspect dstAspect = isDepthStencilAspect srcAspect then
    some srcFormat
  else
    crossAspectFormatTable srcFormat

/-- C3: `getCopyDestinationFormat` is a function of its three arguments
(deterministic: equal inputs give equal outputs), and on every same-aspect-
class input its result is the source format unmodified. -/
theorem c3_same_aspect_class_identity
    (dstAspect srcAspect srcFormat : Nat)
    (h : isDepthStencilAspect dstAspect = isDepthStencilAspect srcAspect) :
    getCopyDestinationFormat dstAspect srcAspect srcFormat
        = getCopyDestinationFormat dstAspect srcAspect srcFormat
      ∧ getCopyDestinationFormat dstAspect srcAspect srcFormat
        = some srcFormat := by
  refine ⟨rfl, ?_⟩
  unfold getCopyDestinationFormat
  rw [if_pos h]

/-- Witness for C3: a copy between two color aspects keeps the format. -/
theorem c3_same_aspect_class_identity_witness :
    getCopyDestinationFormat 1 1 37 = getCopyDestinationFormat 1 1 37
      ∧ getCopyDestinationFormat 1 1 37 = some 37 :=
  c3_same_aspect_class_identity 1 1 37 (by decide)

/-- C4: on every cross-aspect input (exactly one of the two aspects in the
depth/stencil class) whose source format has no entry in the cross-aspect
table, `getCopyDestinationFormat` signals the unsupported-configuration
error (`none`) rather than returning any format. -/
theorem c4_cross_aspect_unmapped_is_error
    (dstAspect srcAspect srcFormat : Nat)
    (hCross : isDepthStencilAspect dstAspect ≠ isDepthStencilAspect srcAspect)
    (hNoEntry : crossAspectFormatTable srcFormat = none) :
    getCopyDestinationFormat dstAspect srcAspect srcFormat = none := by
  unfold getCopyDestinationFormat
  rw [if_neg hCross]
  exact hNoEntry

/-- Witness for C4: copying from a depth aspect (`D24_UNORM_S8_UINT = 129`,
absent from the table) to a color aspect yields the error. -/
theorem c4_cross_aspect_unmapped_is_error_witness :
    getCopyDestinationFormat 1 2 129 = none :=
  c4_cross_aspect_unmapped_is_error 1 2 129 (by decide) (by decide)

/-- Attachment load operations, `VkAttachmentLoadOp`. -/
inductive VkAttachmentLoadOp where
  | load
  | clear
  | dontCare
deriving DecidableEq, Repr

/-- The observable configuration of the render pass built by a
`DxvkMetaCopyRenderPass`: the load operation applied to the destination
attachment on entry. -/
structure RenderPassConfig where
  dstLoadOp : VkAttachmentLoadOp
deriving DecidableEq, Repr

/-- Modelled from the spec: `DxvkMetaCopyRenderPass::createRenderPass(bool
discard)`, whose body lives in `dxvk_meta_copy.cpp`, which is not part of
the sources.  Per the spec (4.5) the render pass built for a (destination
view, source view) pair sets the destination attachment's load operation to
"clear/don't-care" when `discard` is true and to "load" (preserve existing
contents) when false; the two views do not influence the load operation. -/
def createRenderPass (dstImageView srcImageView : Nat) (discard : Bool) :
    RenderPassConfig :=
  if discard then
    { dstLoadOp := VkAttachmentLoadOp.dontCare }
  else
    { dstLoadOp := VkAttachmentLoadOp.load }

/-- Whether a load operation preserves the attachment's prior contents. -/
def loadOpPreserves : VkAttachmentLoadOp → Bool
  | VkAttachmentLoadOp.load => true
  | VkAttachmentLoadOp.clear => false
  | VkAttachmentLoadOp.dontCare => false

/-- C7: for every pair of image views, building the render pass with
`discard = true` yields a destination load operation that discards prior
contents (don't-care or clear, never load), and with `discard = false` the
load operation is "load", preserving existing contents. -/
theorem c7_discard_controls_load_op (dstImageView srcImageView : Nat) :
    loadOpPreserves (createRenderPass dstImageView srcImageView true).dstLoadOp
        = false
      ∧ ((createRenderPass dstImageView srcImageView true).dstLoadOp
            = VkAttachmentLoadOp.dontCare
          ∨ (createRenderPass dstImageView srcImageView true).dstLoadOp
            = VkAttachmentLoadOp.clear)
      ∧ (createRenderPass dstImageView srcImageView false).dstLoadOp
        = VkAttachmentLoadOp.load := by
  refine ⟨rfl, Or.inl rfl, rfl⟩

/-- Embedding of `struct DxvkMetaCopyObjects::FragShaders`: the three
fragment shader module handles per aspect class. -/
structure FragShaders where
  frag1D : Nat
  frag2D : Nat
  fragMs : Nat
deriving DecidableEq, Repr

/-- Source view dimensionality classes distinguished by the builder. -/
inductive ViewDimClass where
  | dim1D
  | dim2D
  | dimMs
deriving DecidableEq, Repr

/-- The variant of a shader set matching a given dimensionality. -/
def FragShaders.variant (fs : FragShaders) : ViewDimClass → Nat
  | ViewDimClass.dim1D => fs.frag1D
  | ViewDimClass.dim2D => fs.frag2D
  | ViewDimClass.dimMs => fs.fragMs

/-- Modelled from the spec: the fragment shader selection step of the
Pipeline Builder (`DxvkMetaCopyObjects::createPipelineObject`), whose body
lives in `dxvk_meta_copy.cpp`, which is not part of the sources.  Per the
spec (4.3 step 3 and its edge case) the builder selects from the fixed
variant sets `m_color` and `m_depth` by destination aspect class crossed
with source dimensionality, as a direct table lookup; an aspect combination
with neither a color nor a depth bit has no variant and must fail fast
(`none`) instead of picking an unrelated variant. -/
def selectFragShader (mColor mDepth : FragShaders) (dstAspect : Nat)
    (dim : ViewDimClass) : Option Nat :=
  if dstAspect &&& VK_IMAGE_ASPECT_COLOR_BIT != 0 then
    some (mColor.variant dim)
  else if dstAspect &&& VK_IMAGE_ASPECT_DEPTH_BIT != 0 then
    some (mDepth.variant dim)
  else
    none

/-- The set of shader module handles held in the fixed variant sets. -/
def inVariantSet (mColor mDepth : FragShaders) (m : Nat) : Prop :=
  m = mColor.frag1D ∨ m = mColor.frag2D ∨ m = mColor.fragMs
    ∨ m = mDepth.frag1D ∨ m = mDepth.frag2D ∨ m = mDepth.fragMs

/-- C8: for every destination aspect with no corresponding variant set
(neither color nor depth bit set, e.g. a stencil-only aspect), the builder's
shader selection fails fast with `none` for every dimensionality — it never
returns any shader, related or not; and whenever it does succeed, the result
is a member of the fixed variant set. -/
theorem c8_no_variant_fails_fast (mColor mDepth : FragShaders)
    (dstAspect : Nat) (dim : ViewDimClass)
    (hColor : dstAspect &&& VK_IMAGE_ASPECT_COLOR_BIT = 0)
    (hDepth : dstAspect &&& VK_IMAGE_ASPECT_DEPTH_BIT = 0) :
    selectFragShader mColor mDepth dstAspect dim = none
      ∧ ∀ a m, selectFragShader mColor mDepth a dim = some m →
          inVariantSet mColor mDepth m := by
  constructor
  · unfold selectFragShader
    simp [hColor, hDepth]
  · intro a m hm
    unfold selectFragShader at hm
    by_cases h1 : (a &&& VK_IMAGE_ASPECT_COLOR_BIT != 0) = true
    · rw [if_pos h1] at hm
      cases hm
      cases dim <;>
        simp [FragShaders.variant, inVariantSet]
    · rw [if_neg h1] at hm
      by_cases h2 : (a &&& VK_IMAGE_ASPECT_DEPTH_BIT != 0) = true
      · rw [if_pos h2] at hm
        cases hm
        cases dim <;>
          simp [FragShaders.variant, inVariantSet]
      · rw [if_neg h2] at hm
        cases hm

/-- Witness for C8: a stencil-only destination aspect (mask `4`) has no
variant set and the selection fails with `none`. -/
theorem c8_no_variant_fails_fast_witness :
    selectFragShader (FragShaders.mk 10 11 12) (FragShaders.mk 20 21 22)
        4 ViewDimClass.dim2D = none :=
  (c8_no_variant_fails_fast (FragShaders.mk 10 11 12) (FragShaders.mk 20 21 22)
    4 ViewDimClass.dim2D (by decide) (by decide)).1

/-- C10: the hash is not injective: the two distinct keys
`{viewType 0, format 1, samples 16}` and `{viewType 0, format 2, samples 32}`
compare unequal under `eq` yet share the hash value `0`, because the shifted
sample bits overlap the shifted format bits. -/
theorem c10_hash_collision :
    (DxvkMetaCopyPipelineKey.mk 0 1 16).eq (DxvkMetaCopyPipelineKey.mk 0 2 32)
        = false
      ∧ (DxvkMetaCopyPipelineKey.mk 0 1 16).hash
        = (DxvkMetaCopyPipelineKey.mk 0 2 32).hash
      ∧ (DxvkMetaCopyPipelineKey.mk 0 1 16).hash = 0 := by
  decide

end DxvkMetaCopy
